import Mathlib

/-!
Verification of the product-service core of the super-market-system
repository: the dual-backend repository layer (relational vs key-value),
its filtered listing and pagination, and the service layer on top.

Embedding conventions:
* a backend table is a `List` of records, in storage/scan order;
* `float64` columns are modelled as rationals, RFC3339 timestamps as
  naturals (an abstract clock value `now` is passed to every operation
  that stamps `updated_at`);
* Go `nil`-able pointer fields are `Option`s;
* errors are a closed inductive mirroring the error strings the source
  creates (`"product not found"` ↦ `Err.productNotFound`, …).
-/

namespace SuperMarket

/-- models/product.go `ProductDimensions`. -/
structure ProductDimensions where
  length : ℚ
  width : ℚ
  height : ℚ
  deriving DecidableEq

/-- models/product.go `Product`. -/
structure Product where
  id : String
  sku : String
  slug : String
  name : String
  description : String
  price : ℚ
  originalPrice : Option ℚ
  images : List String
  categoryID : String
  departmentID : String
  brand : String
  unit : String
  stock : Int
  minStock : Int
  weight : ℚ
  weightUnit : String
  dimensions : ProductDimensions
  isOnSale : Bool
  discount : Option ℚ
  rating : ℚ
  reviews : Int
  isActive : Bool
  tags : List String
  createdAt : Nat
  updatedAt : Nat
  deriving DecidableEq

/-- models/product.go `Department`. -/
structure Department where
  id : String
  name : String
  description : String
  icon : String
  image : String
  slug : String
  isActive : Bool
  createdAt : Nat
  updatedAt : Nat
  deriving DecidableEq

/-- models/product.go `Category`. -/
structure Category where
  id : String
  name : String
  slug : String
  description : String
  parentID : Option String
  level : Int
  isActive : Bool
  createdAt : Nat
  updatedAt : Nat
  deriving DecidableEq

/-- models/product.go `ProductFilter`.  Absent string filters are `""`,
absent pointer filters are `none`, exactly as in the Go zero values. -/
structure ProductFilter where
  categoryID : String := ""
  departmentID : String := ""
  brand : String := ""
  minPrice : Option ℚ := none
  maxPrice : Option ℚ := none
  inStock : Option Bool := none
  isOnSale : Option Bool := none
  minRating : Option ℚ := none
  search : String := ""
  tags : List String := []
  limit : Int := 0
  offset : Int := 0
  deriving DecidableEq

/-- models/product.go `ProductListResponse`. -/
structure ProductListResponse where
  products : List Product
  totalCount : Nat
  limit : Int
  offset : Int
  deriving DecidableEq

/-- models/product.go `UpdateProductRequest` (sparse patch: `none` = field
absent from the request). -/
structure UpdateProductRequest where
  name : Option String := none
  description : Option String := none
  slug : Option String := none
  price : Option ℚ := none
  originalPrice : Option ℚ := none
  categoryID : Option String := none
  departmentID : Option String := none
  brand : Option String := none
  unit : Option String := none
  images : Option (List String) := none
  stock : Option Int := none
  minStock : Option Int := none
  weight : Option ℚ := none
  weightUnit : Option String := none
  dimensions : Option ProductDimensions := none
  isOnSale : Option Bool := none
  discount : Option ℚ := none
  rating : Option ℚ := none
  reviews : Option Int := none
  isActive : Option Bool := none
  tags : Option (List String) := none
  deriving DecidableEq

/-- models/product.go `UpdateDepartmentRequest`. -/
structure UpdateDepartmentRequest where
  name : Option String := none
  description : Option String := none
  icon : Option String := none
  image : Option String := none
  slug : Option String := none
  isActive : Option Bool := none
  deriving DecidableEq

/-- models/product.go `CreateCategoryRequest`. -/
structure CreateCategoryRequest where
  name : String
  slug : String
  description : String
  parentID : Option String := none
  deriving DecidableEq

/-- models/product.go `UpdateCategoryRequest`. -/
structure UpdateCategoryRequest where
  name : Option String := none
  slug : Option String := none
  description : Option String := none
  parentID : Option String := none
  isActive : Option Bool := none
  deriving DecidableEq

/-- The closed set of errors the embedded operations produce; each
constructor names the error string built at the corresponding source
line (service-level wrappers that only add a message prefix via `%w`
are collapsed onto the wrapped error). -/
inductive Err where
  /-- "product ID is required" / "department ID is required" /
  "category ID is required" -/
  | idRequired
  /-- "product not found" -/
  | productNotFound
  /-- "department not found" -/
  | departmentNotFound
  /-- "category not found" -/
  | categoryNotFound
  /-- "parent category not found" -/
  | parentCategoryNotFound
  /-- "category cannot be its own parent" -/
  | categoryOwnParent
  /-- "no fields to update" -/
  | noFieldsToUpdate
  /-- "insufficient stock: current=%d, requested=%d" -/
  | insufficientStock (current requested : Int)
  /-- a storage-layer failure surfaced as-is -/
  | storage
  deriving DecidableEq

/-- Decidable equality of results, for evaluating the operations on
concrete inputs. -/
instance exceptDecEq {ε α : Type} [DecidableEq ε] [DecidableEq α] :
    DecidableEq (Except ε α) := fun x y =>
  match x, y with
  | .ok a, .ok b =>
    if h : a = b then isTrue (by rw [h]) else isFalse (by simp [h])
  | .error e, .error e1 =>
    if h : e = e1 then isTrue (by rw [h]) else isFalse (by simp [h])
  | .ok _, .error _ => isFalse (by simp)
  | .error _, .ok _ => isFalse (by simp)

/-- Character-wise lower-casing, the common abstraction of Go
`strings.ToLower` and SQL `LOWER`. -/
def lowerStr (s : String) : List Char := s.toList.map Char.toLower

/-- SQL `LIKE` pattern evaluation, as the relational engine performs it for
the predicate built in `PostgresRepository.ListProducts`: `%` matches any
character sequence, `_` matches exactly one character, and backslash (the
default Postgres escape) makes the following pattern character literal. -/
def likeMatch : List Char → List Char → Bool
  | [], s => s.isEmpty
  | '%' :: ps, s => s.tails.any (fun t => likeMatch ps t)
  | '_' :: ps, s => !s.isEmpty && likeMatch ps s.tail
  | '\\' :: [], _ => false
  | '\\' :: q :: ps, s => s.head? == some q && likeMatch ps s.tail
  | p :: ps, s => s.head? == some p && likeMatch ps s.tail

/-- The pattern `"%" + strings.ToLower(search) + "%"` built at
unnamed/part_001:450. -/
def likePat (search : String) : List Char := '%' :: (lowerStr search ++ ['%'])

/-- One disjunct of the relational search predicate:
`LOWER(field) LIKE '%' || lower(search) || '%'`. -/
def pgFieldLike (search : String) (field : String) : Bool :=
  likeMatch (likePat search) (lowerStr field)

/-- The five-way `OR` search predicate of `PostgresRepository.ListProducts`
(unnamed/part_001:449-453). -/
def pgSearchMatch (search : String) (p : Product) : Bool :=
  pgFieldLike search p.name || pgFieldLike search p.description ||
    pgFieldLike search p.sku || pgFieldLike search p.brand ||
    pgFieldLike search p.slug

/-- Go `strings.Contains(strings.ToLower hay, strings.ToLower needle)`. -/
def containsLower (hay needle : String) : Bool :=
  decide (lowerStr needle <:+: lowerStr hay)

/-- The in-memory search filter of `DynamoDBRepository.ListProducts`
(dynamodb.go:173-187). -/
def dynSearchMatch (search : String) (p : Product) : Bool :=
  containsLower p.name search || containsLower p.description search ||
    containsLower p.sku search || containsLower p.brand search ||
    containsLower p.slug search

/-- The full relational `WHERE` clause of `PostgresRepository.ListProducts`
(unnamed/part_001:414-453): implicit `is_active`, then each supplied
filter field, AND-combined. -/
def pgMatch (f : ProductFilter) (p : Product) : Bool :=
  p.isActive
    && (f.categoryID == "" || p.categoryID == f.categoryID)
    && (f.departmentID == "" || p.departmentID == f.departmentID)
    && (f.brand == "" || p.brand == f.brand)
    && (match f.minPrice with | none => true | some m => decide (m ≤ p.price))
    && (match f.maxPrice with | none => true | some m => decide (p.price ≤ m))
    && (match f.inStock with | some true => decide (0 < p.stock) | _ => true)
    && (match f.isOnSale with | some true => p.isOnSale | _ => true)
    && (match f.minRating with | none => true | some m => decide (m ≤ p.rating))
    && (f.search == "" || pgSearchMatch f.search p)

/-- The DynamoDB scan filter expression of `DynamoDBRepository.ListProducts`
(dynamodb.go:94-146): every supplied non-search filter plus the always
appended `is_active` condition. -/
def dynNativeMatch (f : ProductFilter) (p : Product) : Bool :=
  (f.categoryID == "" || p.categoryID == f.categoryID)
    && (f.departmentID == "" || p.departmentID == f.departmentID)
    && (f.brand == "" || p.brand == f.brand)
    && (match f.minPrice with | none => true | some m => decide (m ≤ p.price))
    && (match f.maxPrice with | none => true | some m => decide (p.price ≤ m))
    && (match f.inStock with | some true => decide (0 < p.stock) | _ => true)
    && (match f.isOnSale with | some true => p.isOnSale | _ => true)
    && (match f.minRating with | none => true | some m => decide (m ≤ p.rating))
    && p.isActive

/-- unnamed/part_001:413-480 `PostgresRepository.ListProducts`: one filtered
query; the count query runs over the same predicate before pagination;
offset, then limit, apply at the storage layer. -/
def PostgresRepository.ListProducts (db : List Product) (f : ProductFilter) :
    ProductListResponse :=
  let filtered := db.filter (pgMatch f)
  let totalCount := filtered.length
  let afterOffset := if f.offset > 0 then filtered.drop f.offset.toNat else filtered
  let paged := if f.limit > 0 then afterOffset.take f.limit.toNat else afterOffset
  { products := paged, totalCount := totalCount, limit := f.limit, offset := f.offset }

/-- The offset slicing of dynamodb.go:189-194:
`products = products[filter.Offset:]` when `0 < Offset < len`, the empty
slice when `Offset >= len`, unchanged otherwise. -/
def dynApplyOffset (products : List Product) (off : Int) : List Product :=
  if off > 0 && decide (off < (products.length : Int)) then
    products.drop off.toNat
  else if decide ((products.length : Int) ≤ off) then []
  else products

/-- The limit slicing of dynamodb.go:197-199:
`products = products[:filter.Limit]` when `0 < Limit < len`. -/
def dynApplyLimit (products : List Product) (lim : Int) : List Product :=
  if lim > 0 && decide (lim < (products.length : Int)) then
    products.take lim.toNat
  else products

/-- dynamodb.go:86-207 `DynamoDBRepository.ListProducts`.  The scan `Limit`
caps the number of items *evaluated* before the filter expression is
applied (DynamoDB scan semantics), the search filter then runs in memory,
the offset is sliced off, `totalCount` is taken at that point, and the
limit slice comes last. -/
def DynamoDBRepository.ListProducts (db : List Product) (f : ProductFilter) :
    ProductListResponse :=
  let evaluated := if f.limit > 0 then db.take f.limit.toNat else db
  let scanned := evaluated.filter (dynNativeMatch f)
  let searched :=
    if f.search == "" then scanned else scanned.filter (dynSearchMatch f.search)
  let afterOffset := dynApplyOffset searched f.offset
  let totalCount := afterOffset.length
  let paged := dynApplyLimit afterOffset f.limit
  { products := paged, totalCount := totalCount, limit := f.limit, offset := f.offset }

/-- unnamed/part_001:398-411 `PostgresRepository.GetProduct`:
`WHERE id = ? AND is_active = true`. -/
def PostgresRepository.GetProduct (db : List Product) (id : String) :
    Except Err Product :=
  match db.find? (fun p => p.id == id && p.isActive) with
  | some p => .ok p
  | none => .error .productNotFound

/-- dynamodb.go:58-84 `DynamoDBRepository.GetProduct`: a plain key lookup;
no `is_active` condition is applied. -/
def DynamoDBRepository.GetProduct (db : List Product) (id : String) :
    Except Err Product :=
  match db.find? (fun p => p.id == id) with
  | some p => .ok p
  | none => .error .productNotFound

/-- The strategy tag of the dual-backend repository contract
(`ProductRepository`, dynamodb.go:19-41). -/
inductive Backend where
  | pg
  | dyn
  deriving DecidableEq

/-- Dispatch of `ProductRepository.GetProduct`. -/
def getProduct : Backend → List Product → String → Except Err Product
  | .pg => PostgresRepository.GetProduct
  | .dyn => DynamoDBRepository.GetProduct

/-- Dispatch of `ProductRepository.ListProducts`. -/
def listProducts : Backend → List Product → ProductFilter → ProductListResponse
  | .pg => PostgresRepository.ListProducts
  | .dyn => DynamoDBRepository.ListProducts

/-- product_service.go:33-51 `ProductService.ListProducts`: default/clamp
pagination, then delegate to the repository. -/
def ProductService.ListProducts (b : Backend) (db : List Product)
    (f0 : ProductFilter) : ProductListResponse :=
  let f1 := if f0.limit ≤ 0 then { f0 with limit := 20 } else f0
  let f2 := if f1.limit > 100 then { f1 with limit := 100 } else f1
  let f3 := if f2.offset < 0 then { f2 with offset := 0 } else f2
  listProducts b db f3

/-- How many of the patch fields both repository `UpdateProduct`
implementations read are supplied (the same 17 fields in part_001:254-304
and dynamodb.go:241-341; `images`, `min_stock`, `dimensions` and `tags`
are never applied by either). -/
def UpdateProductRequest.suppliedCount (u : UpdateProductRequest) : Nat :=
  (if u.name.isSome then 1 else 0) + (if u.description.isSome then 1 else 0) +
    (if u.price.isSome then 1 else 0) + (if u.categoryID.isSome then 1 else 0) +
    (if u.slug.isSome then 1 else 0) + (if u.originalPrice.isSome then 1 else 0) +
    (if u.departmentID.isSome then 1 else 0) + (if u.brand.isSome then 1 else 0) +
    (if u.unit.isSome then 1 else 0) + (if u.stock.isSome then 1 else 0) +
    (if u.weight.isSome then 1 else 0) + (if u.weightUnit.isSome then 1 else 0) +
    (if u.isOnSale.isSome then 1 else 0) + (if u.discount.isSome then 1 else 0) +
    (if u.rating.isSome then 1 else 0) + (if u.reviews.isSome then 1 else 0) +
    (if u.isActive.isSome then 1 else 0)

/-- Field-by-field application of a sparse product patch, shared by both
backends, plus the `updated_at` stamp (explicit `SET #updated_at` at
dynamodb.go:344-346; gorm `autoUpdateTime` on the relational side). -/
def applyProductUpdates (now : Nat) (u : UpdateProductRequest) (p : Product) :
    Product :=
  { p with
    name := u.name.getD p.name
    description := u.description.getD p.description
    price := u.price.getD p.price
    categoryID := u.categoryID.getD p.categoryID
    slug := u.slug.getD p.slug
    originalPrice := match u.originalPrice with | some v => some v | none => p.originalPrice
    departmentID := u.departmentID.getD p.departmentID
    brand := u.brand.getD p.brand
    unit := u.unit.getD p.unit
    stock := u.stock.getD p.stock
    weight := u.weight.getD p.weight
    weightUnit := u.weightUnit.getD p.weightUnit
    isOnSale := u.isOnSale.getD p.isOnSale
    discount := match u.discount with | some v => some v | none => p.discount
    rating := u.rating.getD p.rating
    reviews := u.reviews.getD p.reviews
    isActive := u.isActive.getD p.isActive
    updatedAt := now }

/-- unnamed/part_001:494-577 `PostgresRepository.UpdateProduct`: fetch by id
(without the `is_active` condition), reject an empty field map, apply the
patch, re-fetch. -/
def PostgresRepository.UpdateProduct (now : Nat) (db : List Product)
    (id : String) (u : UpdateProductRequest) : Except Err (Product × List Product) :=
  match db.find? (fun p => p.id == id) with
  | none => .error .productNotFound
  | some _ =>
    if u.suppliedCount == 0 then .error .noFieldsToUpdate
    else
      let db1 := db.map (fun p => if p.id == id then applyProductUpdates now u p else p)
      match db1.find? (fun p => p.id == id) with
      | some p1 => .ok (p1, db1)
      | none => .error .storage

/-- The zero `Product` that unmarshalling a DynamoDB item holding only the
attributes of one update yields for every absent attribute. -/
def zeroProduct (id : String) : Product :=
  { id := id, sku := "", slug := "", name := "", description := "", price := 0,
    originalPrice := none, images := [], categoryID := "", departmentID := "",
    brand := "", unit := "", stock := 0, minStock := 0, weight := 0,
    weightUnit := "", dimensions := ⟨0, 0, 0⟩, isOnSale := false,
    discount := none, rating := 0, reviews := 0, isActive := false, tags := [],
    createdAt := 0, updatedAt := 0 }

/-- dynamodb.go:233-375 `DynamoDBRepository.UpdateProduct`.  The
`updated_at` entry is appended to the update expression *before* the
emptiness check at line 348, so that check can never fire; `UpdateItem`
without a condition expression upserts, so a missing key creates a fresh
item carrying only the SET attributes. -/
def DynamoDBRepository.UpdateProduct (now : Nat) (db : List Product)
    (id : String) (u : UpdateProductRequest) : Except Err (Product × List Product) :=
  if u.suppliedCount + 1 == 0 then .error .noFieldsToUpdate
  else
    match db.find? (fun p => p.id == id) with
    | some _ =>
      let db1 := db.map (fun p => if p.id == id then applyProductUpdates now u p else p)
      match db1.find? (fun p => p.id == id) with
      | some p1 => .ok (p1, db1)
      | none => .error .storage
    | none =>
      let p1 := applyProductUpdates now u (zeroProduct id)
      .ok (p1, db ++ [p1])

/-- Dispatch of `ProductRepository.UpdateProduct`. -/
def updateProductRepo :
    Backend → Nat → List Product → String → UpdateProductRequest →
      Except Err (Product × List Product)
  | .pg => PostgresRepository.UpdateProduct
  | .dyn => DynamoDBRepository.UpdateProduct

/-- unnamed/part_001:579-590 `PostgresRepository.DeleteProduct`: a hard
`DELETE WHERE id = ?`; zero rows affected is "product not found". -/
def PostgresRepository.DeleteProduct (db : List Product) (id : String) :
    Except Err (List Product) :=
  if db.any (fun p => p.id == id) then
    .ok (db.filter (fun p => !(p.id == id)))
  else .error .productNotFound

/-- dynamodb.go:377-391 `DynamoDBRepository.DeleteProduct`: an unconditional
`DeleteItem`; deleting a missing key succeeds. -/
def DynamoDBRepository.DeleteProduct (db : List Product) (id : String) :
    Except Err (List Product) :=
  .ok (db.filter (fun p => !(p.id == id)))

/-- unnamed/part_001:592-606 `PostgresRepository.UpdateStock`: the single
atomic `UPDATE ... SET stock = stock + ?`; zero rows affected is
"product not found". -/
def PostgresRepository.UpdateStock (now : Nat) (db : List Product)
    (id : String) (quantity : Int) : Except Err (List Product) :=
  if db.any (fun p => p.id == id) then
    .ok (db.map (fun p =>
      if p.id == id then { p with stock := p.stock + quantity, updatedAt := now } else p))
  else .error .productNotFound

/-- dynamodb.go:393-416 `DynamoDBRepository.UpdateStock`:
`SET #stock = #stock + :quantity, #updated_at = :updated_at`; on a missing
item the expression references an absent attribute and the backend rejects
the call. -/
def DynamoDBRepository.UpdateStock (now : Nat) (db : List Product)
    (id : String) (quantity : Int) : Except Err (List Product) :=
  match db.find? (fun p => p.id == id) with
  | some _ =>
    .ok (db.map (fun p =>
      if p.id == id then { p with stock := p.stock + quantity, updatedAt := now } else p))
  | none => .error .storage

/-- Dispatch of `ProductRepository.UpdateStock`. -/
def updateStockRepo :
    Backend → Nat → List Product → String → Int → Except Err (List Product)
  | .pg => PostgresRepository.UpdateStock
  | .dyn => DynamoDBRepository.UpdateStock

/-- product_service.go:140-163 `ProductService.UpdateStock`: read the
product, reject any delta that would drive the read stock negative, then
delegate the increment to the repository. -/
def ProductService.UpdateStock (b : Backend) (now : Nat) (db : List Product)
    (id : String) (quantity : Int) : Except Err (List Product) :=
  if id == "" then .error .idRequired
  else
    match getProduct b db id with
    | .error _ => .error .productNotFound
    | .ok p =>
      if p.stock + quantity < 0 then .error (.insufficientStock p.stock quantity)
      else updateStockRepo b now db id quantity

/-- product_service.go:93-114 `ProductService.UpdateProduct`: require the
product to exist (via the backend get), then delegate the patch. -/
def ProductService.UpdateProduct (b : Backend) (now : Nat) (db : List Product)
    (id : String) (u : UpdateProductRequest) : Except Err (Product × List Product) :=
  if id == "" then .error .idRequired
  else
    match getProduct b db id with
    | .error _ => .error .productNotFound
    | .ok _ => updateProductRepo b now db id u

/-- product_service.go:116-138 `ProductService.DeleteProduct`: verify
existence, then soft delete through a one-field patch
`UpdateProductRequest{IsActive: &false}` — the repository hard-delete is
never called. -/
def ProductService.DeleteProduct (b : Backend) (now : Nat) (db : List Product)
    (id : String) : Except Err (List Product) :=
  if id == "" then .error .idRequired
  else
    match getProduct b db id with
    | .error _ => .error .productNotFound
    | .ok _ =>
      match updateProductRepo b now db id { isActive := some false } with
      | .ok (_, db1) => .ok db1
      | .error e => .error e

/-- unnamed/part_001:621-634 `PostgresRepository.GetDepartment`:
`WHERE id = ? AND is_active = true`. -/
def PostgresRepository.GetDepartment (db : List Department) (id : String) :
    Except Err Department :=
  match db.find? (fun d => d.id == id && d.isActive) with
  | some d => .ok d
  | none => .error .departmentNotFound

/-- unnamed/part_001:636-644 `PostgresRepository.ListDepartments`:
`WHERE is_active = true`. -/
def PostgresRepository.ListDepartments (db : List Department) : List Department :=
  db.filter (fun d => d.isActive)

/-- Supplied-field count of a department patch
(unnamed/part_001:671-690). -/
def UpdateDepartmentRequest.suppliedCount (u : UpdateDepartmentRequest) : Nat :=
  (if u.name.isSome then 1 else 0) + (if u.description.isSome then 1 else 0) +
    (if u.icon.isSome then 1 else 0) + (if u.image.isSome then 1 else 0) +
    (if u.slug.isSome then 1 else 0) + (if u.isActive.isSome then 1 else 0)

/-- Field-by-field application of a sparse department patch plus the gorm
`autoUpdateTime` stamp. -/
def applyDepartmentUpdates (now : Nat) (u : UpdateDepartmentRequest)
    (d : Department) : Department :=
  { d with
    name := u.name.getD d.name
    description := u.description.getD d.description
    icon := u.icon.getD d.icon
    image := u.image.getD d.image
    slug := u.slug.getD d.slug
    isActive := u.isActive.getD d.isActive
    updatedAt := now }

/-- unnamed/part_001:658-708 `PostgresRepository.UpdateDepartment`: fetch by
id (no `is_active` condition), reject an empty field map, apply, re-fetch. -/
def PostgresRepository.UpdateDepartment (now : Nat) (db : List Department)
    (id : String) (u : UpdateDepartmentRequest) :
    Except Err (Department × List Department) :=
  match db.find? (fun d => d.id == id) with
  | none => .error .departmentNotFound
  | some _ =>
    if u.suppliedCount == 0 then .error .noFieldsToUpdate
    else
      let db1 := db.map (fun d => if d.id == id then applyDepartmentUpdates now u d else d)
      match db1.find? (fun d => d.id == id) with
      | some d1 => .ok (d1, db1)
      | none => .error .storage

/-- unnamed/part_000(service):86-108 `DepartmentService.DeleteDepartment`:
verify existence, then soft delete through a one-field patch
`UpdateDepartmentRequest{IsActive: &false}`. -/
def DepartmentService.DeleteDepartment (now : Nat) (db : List Department)
    (id : String) : Except Err (List Department) :=
  if id == "" then .error .idRequired
  else
    match PostgresRepository.GetDepartment db id with
    | .error _ => .error .departmentNotFound
    | .ok _ =>
      match PostgresRepository.UpdateDepartment now db id { isActive := some false } with
      | .ok (_, db1) => .ok db1
      | .error e => .error e

/-- unnamed/part_001:726-739 `PostgresRepository.GetCategory`:
`WHERE id = ? AND is_active = true`. -/
def PostgresRepository.GetCategory (db : List Category) (id : String) :
    Except Err Category :=
  match db.find? (fun c => c.id == id && c.isActive) with
  | some c => .ok c
  | none => .error .categoryNotFound

/-- unnamed/part_001:759-781 `PostgresRepository.CreateCategory`: assign the
fresh id, force `is_active`, and compute `level` from the parent record
(looked up without an `is_active` condition): `parent.Level + 1`, or 0 for
a root. -/
def PostgresRepository.CreateCategory (db : List Category) (newId : String)
    (c : Category) : Except Err (Category × List Category) :=
  match c.parentID with
  | some pid =>
    match db.find? (fun x => x.id == pid) with
    | none => .error .parentCategoryNotFound
    | some parent =>
      let c1 := { c with id := newId, isActive := true, level := parent.level + 1 }
      .ok (c1, db ++ [c1])
  | none =>
    let c1 := { c with id := newId, isActive := true, level := 0 }
    .ok (c1, db ++ [c1])

/-- Supplied-field count of a category patch (unnamed/part_001:796-823). -/
def UpdateCategoryRequest.suppliedCount (u : UpdateCategoryRequest) : Nat :=
  (if u.name.isSome then 1 else 0) + (if u.slug.isSome then 1 else 0) +
    (if u.description.isSome then 1 else 0) + (if u.parentID.isSome then 1 else 0) +
    (if u.isActive.isSome then 1 else 0)

/-- unnamed/part_001:783-841 `PostgresRepository.UpdateCategory`: fetch by
id, resolve the new `level` when the parent reference is supplied (a
non-empty parent id is looked up — failure aborts before the emptiness
check — and an empty parent id resets the level to 0), reject an empty
field map, apply, re-fetch. -/
def PostgresRepository.UpdateCategory (now : Nat) (db : List Category)
    (id : String) (u : UpdateCategoryRequest) :
    Except Err (Category × List Category) :=
  match db.find? (fun c => c.id == id) with
  | none => .error .categoryNotFound
  | some _ =>
    let levelRes : Except Err (Option Int) :=
      match u.parentID with
      | none => .ok none
      | some pid =>
        if pid == "" then .ok (some 0)
        else
          match db.find? (fun c => c.id == pid) with
          | none => .error .parentCategoryNotFound
          | some parent => .ok (some (parent.level + 1))
    match levelRes with
    | .error e => .error e
    | .ok newLevel =>
      if u.suppliedCount == 0 then .error .noFieldsToUpdate
      else
        let db1 := db.map (fun c =>
          if c.id == id then
            { c with
              name := u.name.getD c.name
              slug := u.slug.getD c.slug
              description := u.description.getD c.description
              parentID := match u.parentID with | some pid => some pid | none => c.parentID
              level := newLevel.getD c.level
              isActive := u.isActive.getD c.isActive
              updatedAt := now }
          else c)
        match db1.find? (fun c => c.id == id) with
        | some c1 => .ok (c1, db1)
        | none => .error .storage

/-- category_service.go:42-68 `CategoryService.CreateCategory`: validate a
supplied non-empty parent against the active-only get, then delegate to
the repository create with a fresh id. -/
def CategoryService.CreateCategory (now : Nat) (db : List Category)
    (newId : String) (req : CreateCategoryRequest) :
    Except Err (Category × List Category) :=
  let validateParent : Except Err Unit :=
    match req.parentID with
    | some pid =>
      if pid == "" then .ok ()
      else
        match PostgresRepository.GetCategory db pid with
        | .ok _ => .ok ()
        | .error _ => .error .parentCategoryNotFound
    | none => .ok ()
  match validateParent with
  | .error e => .error e
  | .ok _ =>
    PostgresRepository.CreateCategory db newId
      { id := "", name := req.name, slug := req.slug,
        description := req.description, parentID := req.parentID, level := 0,
        isActive := false, createdAt := now, updatedAt := now }

/-- category_service.go:70-102 `CategoryService.UpdateCategory`: verify the
category exists (active-only get), reject a self-parent, validate a
supplied non-empty parent, then delegate the patch. -/
def CategoryService.UpdateCategory (now : Nat) (db : List Category)
    (id : String) (u : UpdateCategoryRequest) :
    Except Err (Category × List Category) :=
  if id == "" then .error .idRequired
  else
    match PostgresRepository.GetCategory db id with
    | .error _ => .error .categoryNotFound
    | .ok _ =>
      let check : Except Err Unit :=
        match u.parentID with
        | some pid =>
          if pid == "" then .ok ()
          else if pid == id then .error .categoryOwnParent
          else
            match PostgresRepository.GetCategory db pid with
            | .ok _ => .ok ()
            | .error _ => .error .parentCategoryNotFound
        | none => .ok ()
      match check with
      | .error e => .error e
      | .ok _ => PostgresRepository.UpdateCategory now db id u

/-- A category write operation reachable through the service layer. -/
inductive CatOp where
  | create (newId : String) (req : CreateCategoryRequest)
  | update (id : String) (u : UpdateCategoryRequest)
  deriving DecidableEq

/-- One service-level category write step. -/
def catStep (now : Nat) (db : List Category) : CatOp → Except Err (Category × List Category)
  | .create newId req => CategoryService.CreateCategory now db newId req
  | .update id u => CategoryService.UpdateCategory now db id u

/-- An operation that sets or recomputes the parent reference of the
category it touches: every create does (the level is always computed
there), an update only when the patch supplies `parent_id`. -/
def CatOp.touchesParent : CatOp → Bool
  | .create _ _ => true
  | .update _ u => u.parentID.isSome

/-- For a create, the fresh id must not collide with a stored id (the
source draws it from `uuid.New()`). -/
def CatOp.freshFor : CatOp → List Category → Prop
  | .create newId _, db => ∀ c ∈ db, c.id ≠ newId
  | .update _ _, _ => True

/-! ## LIKE-pattern theory

The relational search predicate goes through SQL `LIKE`; the key-value
search predicate is a literal substring test.  The two agree exactly on
queries whose lower-casing contains no `LIKE` metacharacter. -/

/-- No character of the list is a `LIKE` metacharacter
(`%`, `_`, or the default escape backslash). -/
def noWild (q : List Char) : Bool :=
  q.all (fun c => !(c = '%' || c = '_' || c = '\\'))

/-- Modelled from the spec (§4.2): a record matches a search query iff the
query is a case-insensitive substring of ANY of name, description, SKU,
brand, slug. -/
def specSearchMatch (q : String) (p : Product) : Bool :=
  [p.name, p.description, p.sku, p.brand, p.slug].any
    (fun fld => decide (lowerStr q <:+: lowerStr fld))

/-- The records the relational `WHERE` clause selects, before the count and
the pagination slicing — the list `PostgresRepository.ListProducts` both
counts and paginates. -/
def pgMatchedSet (db : List Product) (f : ProductFilter) : List Product :=
  db.filter (pgMatch f)

/-- The records that survive the key-value filter expression plus the
in-memory search filter of `DynamoDBRepository.ListProducts`, before the
offset/limit slicing, over a scan not truncated by the `Limit` parameter. -/
def dynMatchedSet (db : List Product) (f : ProductFilter) : List Product :=
  let scanned := db.filter (dynNativeMatch f)
  if f.search == "" then scanned else scanned.filter (dynSearchMatch f.search)

/-- Modelled from the spec (§3): the effective page limit — default 20 when
no positive limit is supplied, clamped to 100. -/
def specClampLimit (l : Int) : Int :=
  if l ≤ 0 then 20 else if l > 100 then 100 else l

/-- Modelled from the spec (§3): the effective offset — clamped to ≥ 0. -/
def specClampOffset (o : Int) : Int :=
  if o < 0 then 0 else o

/-- `f'` strengthens `f` by supplying exactly one further constraint field
that `f` leaves absent (the pagination and tag fields are untouched, tags
being declared-but-inert in both backends). -/
def AddsOne (f f' : ProductFilter) : Prop :=
  (f.categoryID = "" ∧ f'.categoryID ≠ "" ∧ f' = { f with categoryID := f'.categoryID }) ∨
  (f.departmentID = "" ∧ f'.departmentID ≠ "" ∧ f' = { f with departmentID := f'.departmentID }) ∨
  (f.brand = "" ∧ f'.brand ≠ "" ∧ f' = { f with brand := f'.brand }) ∨
  (f.minPrice = none ∧ f'.minPrice ≠ none ∧ f' = { f with minPrice := f'.minPrice }) ∨
  (f.maxPrice = none ∧ f'.maxPrice ≠ none ∧ f' = { f with maxPrice := f'.maxPrice }) ∨
  (f.inStock = none ∧ f'.inStock ≠ none ∧ f' = { f with inStock := f'.inStock }) ∨
  (f.isOnSale = none ∧ f'.isOnSale ≠ none ∧ f' = { f with isOnSale := f'.isOnSale }) ∨
  (f.minRating = none ∧ f'.minRating ≠ none ∧ f' = { f with minRating := f'.minRating }) ∨
  (f.search = "" ∧ f'.search ≠ "" ∧ f' = { f with search := f'.search })

instance addsOneDec (f f' : ProductFilter) : Decidable (AddsOne f f') := by
  unfold AddsOne
  infer_instance

/-- A concrete active product. -/
def prodA : Product :=
  { id := "a", sku := "sku-a", slug := "milk-1l", name := "Milk",
    description := "whole milk", price := 10, originalPrice := none,
    images := [], categoryID := "c1", departmentID := "d1", brand := "Acme",
    unit := "l", stock := 10, minStock := 5, weight := 1, weightUnit := "kg",
    dimensions := ⟨1, 1, 1⟩, isOnSale := false, discount := none, rating := 4,
    reviews := 3, isActive := true, tags := [], createdAt := 0, updatedAt := 0 }

/-- A second concrete active product. -/
def prodB : Product :=
  { prodA with id := "b", sku := "sku-b", slug := "bread-kg", name := "Bread" }

/-- A soft-deleted product. -/
def prodInactive : Product := { prodA with id := "x", isActive := false }

/-- An active product whose name contains the literal text `axb`. -/
def prodAxb : Product :=
  { prodA with
    id := "w"
    sku := "sku-w"
    slug := "w"
    name := "axb"
    description := ""
    brand := "" }

/-- A concrete root category. -/
def catA : Category :=
  { id := "a", name := "A", slug := "a", description := "", parentID := none,
    level := 0, isActive := true, createdAt := 0, updatedAt := 0 }

/-- A second concrete root category. -/
def catC : Category := { catA with id := "c", name := "C", slug := "c" }

/-- A child of `catA`. -/
def catB : Category :=
  { catA with
    id := "b"
    name := "B"
    slug := "b"
    parentID := some "a"
    level := 1 }

/-- `catA` after being reparented under `catC`. -/
def catA2 : Category := { catA with parentID := some "c", level := 1 }

/-- A concrete active department. -/
def deptA : Department :=
  { id := "d1", name := "Dairy", description := "", icon := "", image := "",
    slug := "dairy", isActive := true, createdAt := 0, updatedAt := 0 }

theorem noWild_cons {c : Char} {q : List Char} (h : noWild (c :: q) = true) :
    (c ≠ '%' ∧ c ≠ '_' ∧ c ≠ '\\') ∧ noWild q = true := by
  simp only [noWild, List.all_cons, Bool.and_eq_true] at h
  refine ⟨?_, h.2⟩
  have h1 := h.1
  simp only [Bool.not_eq_eq_eq_not, Bool.not_true, Bool.or_eq_false_iff,
    decide_eq_false_iff_not] at h1
  exact ⟨h1.1.1, h1.1.2, h1.2⟩

theorem likeMatch_percent (ps : List Char) (s : List Char) :
    likeMatch ('%' :: ps) s = true ↔ ∃ t, t <:+ s ∧ likeMatch ps t = true := by
  rw [likeMatch]
  simp only [List.any_eq_true, List.mem_tails]

theorem likeMatch_literal (q : List Char) (hw : noWild q = true) (s : List Char) :
    likeMatch (q ++ ['%']) s = true ↔ q <+: s := by
  induction q generalizing s with
  | nil =>
    rw [List.nil_append]
    simp only [List.nil_prefix, iff_true]
    rw [likeMatch_percent]
    exact ⟨[], List.nil_suffix, rfl⟩
  | cons c q1 ih =>
    obtain ⟨⟨hc1, hc2, hc3⟩, hq1⟩ := noWild_cons hw
    have he : likeMatch ((c :: q1) ++ ['%']) s
        = (s.head? == some c && likeMatch (q1 ++ ['%']) s.tail) := by
      rw [List.cons_append]
      rw [likeMatch] <;> simp_all
    rw [he]
    cases s with
    | nil => simp [List.prefix_nil]
    | cons d s1 =>
      simp only [List.head?_cons, List.tail_cons, Bool.and_eq_true, beq_iff_eq,
        Option.some.injEq, List.cons_prefix_cons, ih hq1 s1]
      constructor
      · rintro ⟨h1, h2⟩; exact ⟨h1.symm, h2⟩
      · rintro ⟨h1, h2⟩; exact ⟨h1.symm, h2⟩

theorem likeMatch_likePat (q : List Char) (hw : noWild q = true) (s : List Char) :
    likeMatch ('%' :: (q ++ ['%'])) s = true ↔ q <:+: s := by
  rw [likeMatch_percent]
  constructor
  · rintro ⟨t, hsuf, hm⟩
    exact List.infix_iff_prefix_suffix.mpr ⟨t, (likeMatch_literal q hw t).mp hm, hsuf⟩
  · intro h
    obtain ⟨t, hpre, hsuf⟩ := List.infix_iff_prefix_suffix.mp h
    exact ⟨t, hsuf, (likeMatch_literal q hw t).mpr hpre⟩

theorem pgFieldLike_eq_containsLower (q fld : String)
    (hw : noWild (lowerStr q) = true) :
    pgFieldLike q fld = containsLower fld q := by
  have h := likeMatch_likePat (lowerStr q) hw (lowerStr fld)
  simp only [pgFieldLike, likePat, containsLower]
  rw [Bool.eq_iff_iff]
  simp only [decide_eq_true_eq]
  exact h

theorem pgSearchMatch_eq_dynSearchMatch (q : String) (p : Product)
    (hw : noWild (lowerStr q) = true) :
    pgSearchMatch q p = dynSearchMatch q p := by
  simp only [pgSearchMatch, dynSearchMatch,
    pgFieldLike_eq_containsLower _ _ hw]

-- sanity checks on the embedded matchers
example : pgFieldLike "milk" "Whole MILK 1l" = true := by decide
example : pgFieldLike "a%b" "axyzb" = true := by decide
example : containsLower "axyzb" "a%b" = false := by decide
example : pgFieldLike "a_c" "abc" = true := by decide
example : pgFieldLike "ab" "b" = false := by decide

theorem dynSearchMatch_eq_spec (q : String) (p : Product) :
    dynSearchMatch q p = specSearchMatch q p := by
  simp only [dynSearchMatch, containsLower, specSearchMatch, List.any_cons,
    List.any_nil, Bool.or_false, Bool.or_assoc]

theorem pgSearchMatch_eq_spec (q : String) (p : Product)
    (hw : noWild (lowerStr q) = true) :
    pgSearchMatch q p = specSearchMatch q p := by
  rw [← dynSearchMatch_eq_spec]
  simp only [pgSearchMatch, dynSearchMatch,
    pgFieldLike_eq_containsLower _ _ hw]

/-- The relational `WHERE` clause coincides with the conjunction of the
key-value filter expression and the in-memory search filter, whenever the
search string has no `LIKE` metacharacter. -/
theorem pgMatch_eq_dyn (f : ProductFilter) (p : Product)
    (hw : noWild (lowerStr f.search) = true) :
    pgMatch f p =
      (dynNativeMatch f p && (f.search == "" || dynSearchMatch f.search p)) := by
  unfold pgMatch dynNativeMatch
  rw [pgSearchMatch_eq_spec f.search p hw, ← dynSearchMatch_eq_spec]
  rw [Bool.eq_iff_iff]
  simp only [Bool.and_eq_true, Bool.or_eq_true]
  tauto

/-! ## Listing lemmas -/

theorem dynApplyOffset_nonpos (S : List Product) (off : Int) (ho : off ≤ 0) :
    dynApplyOffset S off = S := by
  unfold dynApplyOffset
  have h1 : decide (off > 0) = false := by simp; omega
  rw [h1, Bool.false_and, if_neg Bool.false_ne_true]
  by_cases h2 : (S.length : Int) ≤ off
  · have hz : S.length = 0 := by omega
    rw [if_pos (by simpa using h2), List.length_eq_zero.mp hz]
  · rw [if_neg (by simpa using h2)]

theorem dynApplyLimit_nonpos (S : List Product) (lim : Int) (hl : lim ≤ 0) :
    dynApplyLimit S lim = S := by
  unfold dynApplyLimit
  have h1 : decide (lim > 0) = false := by simp; omega
  rw [h1, Bool.false_and, if_neg Bool.false_ne_true]

theorem dynApplyLimit_length (S : List Product) (lim : Int) (hl : 0 < lim) :
    ((dynApplyLimit S lim).length : Int) ≤ lim := by
  unfold dynApplyLimit
  by_cases h2 : lim < (S.length : Int)
  · rw [if_pos (by simp [hl, h2])]
    simp only [List.length_take]
    omega
  · have : (decide (lim > 0) && decide (lim < (S.length : Int))) = false := by
      simp [h2]
    rw [this, if_neg Bool.false_ne_true]
    omega

theorem pgList_no_pagination (db : List Product) (f : ProductFilter)
    (hl : f.limit ≤ 0) (ho : f.offset ≤ 0) :
    PostgresRepository.ListProducts db f =
      { products := pgMatchedSet db f,
        totalCount := (pgMatchedSet db f).length,
        limit := f.limit, offset := f.offset } := by
  have h1 : ¬ (f.offset > 0) := by omega
  have h2 : ¬ (f.limit > 0) := by omega
  simp only [PostgresRepository.ListProducts, pgMatchedSet]
  rw [if_neg h1, if_neg h2]

theorem dynList_no_pagination (db : List Product) (f : ProductFilter)
    (hl : f.limit ≤ 0) (ho : f.offset ≤ 0) :
    DynamoDBRepository.ListProducts db f =
      { products := dynMatchedSet db f,
        totalCount := (dynMatchedSet db f).length,
        limit := f.limit, offset := f.offset } := by
  have h2 : ¬ (f.limit > 0) := by omega
  simp only [DynamoDBRepository.ListProducts, dynMatchedSet]
  rw [if_neg h2, dynApplyOffset_nonpos _ _ ho, dynApplyLimit_nonpos _ _ hl]

/-- With a wildcard-free search, the relational matched set and the
key-value matched set coincide as lists. -/
theorem pgMatchedSet_eq_dynMatchedSet (db : List Product) (f : ProductFilter)
    (hw : noWild (lowerStr f.search) = true) :
    pgMatchedSet db f = dynMatchedSet db f := by
  unfold pgMatchedSet dynMatchedSet
  by_cases hq : f.search = ""
  · rw [if_pos (by simp [hq])]
    apply List.filter_congr
    intro p _
    rw [pgMatch_eq_dyn f p hw]
    simp [hq]
  · rw [if_neg (by simpa using hq), List.filter_filter]
    apply List.filter_congr
    intro p _
    rw [pgMatch_eq_dyn f p hw]
    have : (f.search == "") = false := by simpa using hq
    rw [this, Bool.false_or, Bool.and_comm]

/-! ## Claims -/

/-- C1 (counterexample): the two backends do NOT always return the same id
set and total count.  (i) `offset = 1` over two matching products: the
relational total count is 2, the key-value one is 1 (counted after the
offset slice).  (ii) `limit = 1` over an inactive-then-active table: the
relational page holds the active product, the key-value scan evaluates
only the first (inactive) item and returns nothing.  (iii) the search
`"a%b"` is a `LIKE` pattern relationally but a literal substring in the
key-value scan, so the id sets differ. -/
theorem C1_counterexample :
    ((PostgresRepository.ListProducts [prodA, prodB] { offset := 1 }).totalCount = 2 ∧
     (DynamoDBRepository.ListProducts [prodA, prodB] { offset := 1 }).totalCount = 1) ∧
    ((PostgresRepository.ListProducts [prodInactive, prodA] { limit := 1 }).products.map Product.id = ["a"] ∧
     (DynamoDBRepository.ListProducts [prodInactive, prodA] { limit := 1 }).products.map Product.id = []) ∧
    ((PostgresRepository.ListProducts [prodAxb] { search := "a%b" }).products.map Product.id = ["w"] ∧
     (DynamoDBRepository.ListProducts [prodAxb] { search := "a%b" }).products.map Product.id = []) := by
  decide

/-- C1 (amended): for every fixed static dataset and every `ProductFilter`
that supplies no pagination (`limit ≤ 0` and `offset ≤ 0`) and whose
lower-cased search string contains no SQL `LIKE` metacharacter, the
relational and the key-value `ListProducts` return the same matching ids
(here even in the same order) and the same total count. -/
theorem C1_backend_equivalence (db : List Product) (f : ProductFilter)
    (hl : f.limit ≤ 0) (ho : f.offset ≤ 0)
    (hw : noWild (lowerStr f.search) = true) :
    (PostgresRepository.ListProducts db f).products.map Product.id =
      (DynamoDBRepository.ListProducts db f).products.map Product.id ∧
    (PostgresRepository.ListProducts db f).totalCount =
      (DynamoDBRepository.ListProducts db f).totalCount := by
  rw [pgList_no_pagination db f hl ho, dynList_no_pagination db f hl ho,
    pgMatchedSet_eq_dynMatchedSet db f hw]
  exact ⟨rfl, rfl⟩

/-- C1 witness: the amended equivalence at a concrete dataset and filter. -/
theorem C1_witness :
    ((0 : Int) ≤ 0 ∧ (0 : Int) ≤ 0 ∧ noWild (lowerStr "milk") = true) ∧
    ((PostgresRepository.ListProducts [prodA, prodB, prodInactive] { search := "milk" }).products.map Product.id =
       (DynamoDBRepository.ListProducts [prodA, prodB, prodInactive] { search := "milk" }).products.map Product.id ∧
     (PostgresRepository.ListProducts [prodA, prodB, prodInactive] { search := "milk" }).totalCount =
       (DynamoDBRepository.ListProducts [prodA, prodB, prodInactive] { search := "milk" }).totalCount) :=
  ⟨⟨by decide, by decide, by decide⟩,
    C1_backend_equivalence [prodA, prodB, prodInactive] { search := "milk" }
      (by decide) (by decide) (by decide)⟩

/-- C2 (code bug): `TotalCount` in the key-value strategy is computed after
the offset slice (dynamodb.go:190-196) and over a scan truncated to
`limit` evaluated items (dynamodb.go:158-160), so it does not count the
records matching the filter predicates.  Here both backends agree that 2
records match each filter, and the relational `TotalCount` is 2, yet the
key-value `TotalCount` is 1 under `offset = 1` and also 1 under
`limit = 1`. -/
theorem C2_totalCount_bug :
    ([prodA, prodB].filter (pgMatch { offset := 1 })).length = 2 ∧
    ((dynMatchedSet [prodA, prodB] { offset := 1 }).length = 2 ∧
     (dynMatchedSet [prodA, prodB] { limit := 1 }).length = 2) ∧
    (PostgresRepository.ListProducts [prodA, prodB] { offset := 1 }).totalCount = 2 ∧
    (DynamoDBRepository.ListProducts [prodA, prodB] { offset := 1 }).totalCount = 1 ∧
    (PostgresRepository.ListProducts [prodA, prodB] { limit := 1 }).totalCount = 2 ∧
    (DynamoDBRepository.ListProducts [prodA, prodB] { limit := 1 }).totalCount = 1 := by
  decide

/-- C8 (counterexample): with the search string `"a%b"`, the relational
backend treats `%` as a `LIKE` wildcard and selects the product named
`axb`, although `"a%b"` is not a substring of any searched field — the
key-value backend accordingly rejects it. -/
theorem C8_counterexample :
    pgSearchMatch "a%b" prodAxb = true ∧
    specSearchMatch "a%b" prodAxb = false ∧
    dynSearchMatch "a%b" prodAxb = false := by
  decide

/-- C8 (amended): for every search string whose lower-casing contains no
`LIKE` metacharacter (`%`, `_`, backslash), both backends select a product
exactly when the lower-cased search string is a substring of at least one
of name, description, SKU, brand, slug; the key-value backend does so for
every search string. -/
theorem C8_search_substring (q : String) (p : Product)
    (hw : noWild (lowerStr q) = true) :
    pgSearchMatch q p = specSearchMatch q p ∧
    dynSearchMatch q p = specSearchMatch q p :=
  ⟨pgSearchMatch_eq_spec q p hw, dynSearchMatch_eq_spec q p⟩

/-- C8 witness: the search agreement at a concrete query and product. -/
theorem C8_witness :
    noWild (lowerStr "MILK") = true ∧
    (pgSearchMatch "MILK" prodA = specSearchMatch "MILK" prodA ∧
     dynSearchMatch "MILK" prodA = specSearchMatch "MILK" prodA) :=
  ⟨by decide, C8_search_substring "MILK" prodA (by decide)⟩

/-- C5 (code bug): an all-`nil` patch is rejected with "no fields to
update" by the relational backend, but the key-value backend appends
`updated_at` to the update expression before its emptiness check
(dynamodb.go:344-350), so the check is dead code: the same empty patch
succeeds there — both at the repository and through the service — and
rewrites the stored record's `updated_at`. -/
theorem C5_empty_patch_bug :
    PostgresRepository.UpdateProduct 7 [prodA] "a" {} = .error .noFieldsToUpdate ∧
    DynamoDBRepository.UpdateProduct 7 [prodA] "a" {} =
      .ok ({ prodA with updatedAt := 7 }, [{ prodA with updatedAt := 7 }]) ∧
    ProductService.UpdateProduct .dyn 7 [prodA] "a" {} =
      .ok ({ prodA with updatedAt := 7 }, [{ prodA with updatedAt := 7 }]) := by
  decide

/-! ## Pagination clamping (C7) -/

theorem serviceList_exists_clamped (b : Backend) (db : List Product) (f : ProductFilter) :
    ∃ f3 : ProductFilter,
      ProductService.ListProducts b db f = listProducts b db f3 ∧
      f3.limit = specClampLimit f.limit ∧ f3.offset = specClampOffset f.offset := by
  refine ⟨_, rfl, ?_, ?_⟩ <;>
    simp only [specClampLimit, specClampOffset, apply_ite ProductFilter.limit,
      apply_ite ProductFilter.offset] <;>
    split_ifs <;> simp_all

theorem listProducts_limit (b : Backend) (db : List Product) (f : ProductFilter) :
    (listProducts b db f).limit = f.limit := by
  cases b <;> rfl

theorem listProducts_offset (b : Backend) (db : List Product) (f : ProductFilter) :
    (listProducts b db f).offset = f.offset := by
  cases b <;> rfl

theorem listProducts_page_length (b : Backend) (db : List Product)
    (f : ProductFilter) (h : 0 < f.limit) :
    (((listProducts b db f).products.length : Int)) ≤ f.limit := by
  cases b
  · simp only [listProducts, PostgresRepository.ListProducts]
    rw [if_pos h]
    simp only [List.length_take]
    omega
  · simp only [listProducts, DynamoDBRepository.ListProducts]
    exact dynApplyLimit_length _ _ h

theorem specClampLimit_pos (l : Int) : 0 < specClampLimit l := by
  unfold specClampLimit
  split_ifs <;> omega

/-- C7: the service-level `ListProducts` replaces a non-positive limit by the
default 20, clamps limits above 100 down to 100, clamps negative offsets to
0, and — on either backend — returns a page of at most the effective limit
of products. -/
theorem C7_pagination_clamp (b : Backend) (db : List Product) (f : ProductFilter) :
    (ProductService.ListProducts b db f).limit = specClampLimit f.limit ∧
    (ProductService.ListProducts b db f).offset = specClampOffset f.offset ∧
    (((ProductService.ListProducts b db f).products.length : Int)) ≤
      specClampLimit f.limit := by
  obtain ⟨f3, heq, hlim, hoff⟩ := serviceList_exists_clamped b db f
  rw [heq, listProducts_limit, listProducts_offset, hlim, hoff, ← hlim]
  exact ⟨rfl, rfl, listProducts_page_length b db f3 (by rw [hlim]; exact specClampLimit_pos f.limit)⟩

/-! ## Filter monotonicity (C9) -/

theorem pgMatch_mono (f f' : ProductFilter) (h : AddsOne f f') :
    ∀ p, pgMatch f' p = true → pgMatch f p = true := by
  intro p hp
  rcases h with ⟨h1, _, he⟩ | ⟨h1, _, he⟩ | ⟨h1, _, he⟩ | ⟨h1, _, he⟩ | ⟨h1, _, he⟩ |
    ⟨h1, _, he⟩ | ⟨h1, _, he⟩ | ⟨h1, _, he⟩ | ⟨h1, _, he⟩ <;>
    rw [he] at hp <;>
    clear he <;>
    simp only [pgMatch, Bool.and_eq_true, Bool.or_eq_true] at hp ⊢ <;>
    simp_all

theorem dynNativeMatch_mono (f f' : ProductFilter) (h : AddsOne f f') :
    ∀ p, dynNativeMatch f' p = true → dynNativeMatch f p = true := by
  intro p hp
  rcases h with ⟨h1, _, he⟩ | ⟨h1, _, he⟩ | ⟨h1, _, he⟩ | ⟨h1, _, he⟩ | ⟨h1, _, he⟩ |
    ⟨h1, _, he⟩ | ⟨h1, _, he⟩ | ⟨h1, _, he⟩ | ⟨h1, _, he⟩ <;>
    rw [he] at hp <;>
    clear he <;>
    simp only [dynNativeMatch, Bool.and_eq_true, Bool.or_eq_true] at hp ⊢ <;>
    simp_all

theorem dynMatchedSet_mono_same_search (db : List Product) (f f' : ProductFilter)
    (hs : f'.search = f.search)
    (hna : ∀ p, dynNativeMatch f' p = true → dynNativeMatch f p = true) :
    List.Sublist (dynMatchedSet db f') (dynMatchedSet db f) := by
  unfold dynMatchedSet
  rw [hs]
  by_cases hq : (f.search == "") = true
  · rw [if_pos hq, if_pos hq]
    exact List.monotone_filter_right db hna
  · rw [if_neg hq, if_neg hq, List.filter_filter, List.filter_filter]
    refine List.monotone_filter_right db ?_
    intro a ha
    rw [Bool.and_eq_true] at ha ⊢
    exact ⟨ha.1, hna a ha.2⟩

/-- C9: supplying one further constraint (category, department, brand,
min/max price, in-stock, on-sale, min rating, or search) shrinks — never
grows — the matched set: the new matched list is a sublist of the old one
on both backends, so its size never increases. -/
theorem C9_filter_monotonicity (db : List Product) (f f' : ProductFilter)
    (h : AddsOne f f') :
    ((List.Sublist (pgMatchedSet db f') (pgMatchedSet db f)) ∧
      (pgMatchedSet db f').length ≤ (pgMatchedSet db f).length) ∧
    ((List.Sublist (dynMatchedSet db f') (dynMatchedSet db f)) ∧
      (dynMatchedSet db f').length ≤ (dynMatchedSet db f).length) := by
  have hpg : List.Sublist (pgMatchedSet db f') (pgMatchedSet db f) := by
    unfold pgMatchedSet
    exact List.monotone_filter_right db (pgMatch_mono f f' h)
  have hdyn : List.Sublist (dynMatchedSet db f') (dynMatchedSet db f) := by
    have hna := dynNativeMatch_mono f f' h
    rcases h with ⟨h1, h2, he⟩ | ⟨h1, h2, he⟩ | ⟨h1, h2, he⟩ | ⟨h1, h2, he⟩ |
      ⟨h1, h2, he⟩ | ⟨h1, h2, he⟩ | ⟨h1, h2, he⟩ | ⟨h1, h2, he⟩ | ⟨h1, h2, he⟩
    case inr.inr.inr.inr.inr.inr.inr.inr =>
      -- the supplied constraint is the search string
      rw [he]
      unfold dynMatchedSet
      have hne : dynNativeMatch { f with search := f'.search } = dynNativeMatch f := rfl
      rw [hne, if_neg (by simpa using h2), if_pos (by simp [h1])]
      exact List.filter_sublist _
    all_goals exact dynMatchedSet_mono_same_search db f f' (by rw [he]) hna
  exact ⟨⟨hpg, hpg.length_le⟩, ⟨hdyn, hdyn.length_le⟩⟩

/-- C9 witness: the monotonicity at a concrete dataset, adding a brand
constraint to the empty filter. -/
theorem C9_witness :
    AddsOne {} { brand := "Acme" } ∧
    ((List.Sublist (pgMatchedSet [prodA, prodB, prodAxb] { brand := "Acme" })
         (pgMatchedSet [prodA, prodB, prodAxb] {}) ∧
      (pgMatchedSet [prodA, prodB, prodAxb] { brand := "Acme" }).length ≤
        (pgMatchedSet [prodA, prodB, prodAxb] {}).length) ∧
     (List.Sublist (dynMatchedSet [prodA, prodB, prodAxb] { brand := "Acme" })
         (dynMatchedSet [prodA, prodB, prodAxb] {}) ∧
      (dynMatchedSet [prodA, prodB, prodAxb] { brand := "Acme" }).length ≤
        (dynMatchedSet [prodA, prodB, prodAxb] {}).length)) :=
  ⟨by decide,
    C9_filter_monotonicity [prodA, prodB, prodAxb] {} { brand := "Acme" } (by decide)⟩

/-! ## Stock adjustment (C3) -/

theorem id_unique {db : List Product} (hid : (db.map Product.id).Nodup)
    {p q : Product} (hp : p ∈ db) (hq : q ∈ db) (hpq : p.id = q.id) : p = q :=
  List.inj_on_of_nodup_map hid hp hq hpq

theorem getProduct_ok (b : Backend) (db : List Product) (p : Product)
    (hid : (db.map Product.id).Nodup) (hp : p ∈ db) (hact : p.isActive = true) :
    getProduct b db p.id = .ok p := by
  cases b
  case pg =>
    show PostgresRepository.GetProduct db p.id = .ok p
    unfold PostgresRepository.GetProduct
    cases hf : db.find? (fun x => x.id == p.id && x.isActive) with
    | none =>
      have hcontra := List.find?_eq_none.mp hf p hp
      simp [hact] at hcontra
    | some x =>
      have hpred := List.find?_some hf
      have hxm := List.mem_of_find?_eq_some hf
      rw [Bool.and_eq_true, beq_iff_eq] at hpred
      rw [id_unique hid hxm hp hpred.1]
  case dyn =>
    show DynamoDBRepository.GetProduct db p.id = .ok p
    unfold DynamoDBRepository.GetProduct
    cases hf : db.find? (fun x => x.id == p.id) with
    | none =>
      have hcontra := List.find?_eq_none.mp hf p hp
      simp at hcontra
    | some x =>
      have hpred := List.find?_some hf
      have hxm := List.mem_of_find?_eq_some hf
      rw [beq_iff_eq] at hpred
      rw [id_unique hid hxm hp hpred]

theorem updateStockRepo_ok (b : Backend) (now : Nat) (db : List Product)
    (p : Product) (q : Int) (hp : p ∈ db) :
    updateStockRepo b now db p.id q =
      .ok (db.map (fun x =>
        if x.id == p.id then { x with stock := x.stock + q, updatedAt := now }
        else x)) := by
  cases b
  case pg =>
    show PostgresRepository.UpdateStock now db p.id q = _
    unfold PostgresRepository.UpdateStock
    rw [if_pos (show (db.any fun x => x.id == p.id) = true from by
      rw [List.any_eq_true]; exact ⟨p, hp, by simp⟩)]
  case dyn =>
    show DynamoDBRepository.UpdateStock now db p.id q = _
    unfold DynamoDBRepository.UpdateStock
    cases hf : db.find? (fun x => x.id == p.id) with
    | none =>
      have hcontra := List.find?_eq_none.mp hf p hp
      simp at hcontra
    | some x => rfl

/-- C3: the service-level stock adjustment, on either backend, fails with
the insufficient-stock (conflict) error whenever the stored stock plus the
delta is negative, and whenever it succeeds every stored record under that
id has the non-negative stock `old + delta`. -/
theorem C3_stock_guard (b : Backend) (now : Nat) (db : List Product)
    (p : Product) (q : Int)
    (hid : (db.map Product.id).Nodup) (hp : p ∈ db)
    (hact : p.isActive = true) (hne : p.id ≠ "") :
    (p.stock + q < 0 →
      ProductService.UpdateStock b now db p.id q =
        .error (.insufficientStock p.stock q)) ∧
    (∀ db', ProductService.UpdateStock b now db p.id q = .ok db' →
      ∀ p1 ∈ db', p1.id = p.id → p1.stock = p.stock + q ∧ 0 ≤ p1.stock) := by
  have hget := getProduct_ok b db p hid hp hact
  have hserv : ProductService.UpdateStock b now db p.id q =
      (if p.stock + q < 0 then .error (.insufficientStock p.stock q)
       else updateStockRepo b now db p.id q) := by
    unfold ProductService.UpdateStock
    rw [if_neg (by simpa using hne), hget]
  constructor
  · intro hneg
    rw [hserv, if_pos hneg]
  · intro db' hok p1 hmem hid1
    rw [hserv] at hok
    by_cases hneg : p.stock + q < 0
    · rw [if_pos hneg] at hok
      cases hok
    · rw [if_neg hneg, updateStockRepo_ok b now db p q hp] at hok
      injection hok with hdb'
      subst hdb'
      obtain ⟨x, hx, hxeq⟩ := List.mem_map.mp hmem
      by_cases hxid : (x.id == p.id) = true
      · rw [if_pos hxid] at hxeq
        have hxp : x = p := id_unique hid hx hp (by simpa using hxid)
        subst hxp
        rw [← hxeq]
        constructor
        · rfl
        · simpa using by omega
      · rw [if_neg hxid] at hxeq
        rw [← hxeq] at hid1
        exact absurd hid1 (by simpa using hxid)

/-- C3 witness: a delta of −12 against a stock of 10 is rejected with the
insufficient-stock error carrying current=10, requested=−12. -/
theorem C3_witness :
    (([prodA].map Product.id).Nodup ∧ prodA ∈ [prodA] ∧
      prodA.isActive = true ∧ prodA.id ≠ "") ∧
    ((prodA.stock + (-12) < 0 →
       ProductService.UpdateStock .pg 7 [prodA] prodA.id (-12) =
         .error (.insufficientStock prodA.stock (-12))) ∧
     (∀ db', ProductService.UpdateStock .pg 7 [prodA] prodA.id (-12) = .ok db' →
       ∀ p1 ∈ db', p1.id = prodA.id → p1.stock = prodA.stock + (-12) ∧ 0 ≤ p1.stock)) :=
  ⟨⟨by decide, by decide, by decide, by decide⟩,
    C3_stock_guard .pg 7 [prodA] prodA (-12)
      (by decide) (by decide) (by decide) (by decide)⟩

/-! ## Soft delete (C4, C10) -/

theorem applyProductUpdates_deactivate (now : Nat) (p : Product) :
    applyProductUpdates now { isActive := some false } p =
      { p with isActive := false, updatedAt := now } := rfl

theorem updateRepo_deactivate (b : Backend) (now : Nat) (db : List Product)
    (id : String) (p0 : Product) (hp : p0 ∈ db) (hid0 : p0.id = id) :
    ∃ q, updateProductRepo b now db id { isActive := some false } =
      .ok (q, db.map (fun x =>
        if x.id == id then { x with isActive := false, updatedAt := now }
        else x)) := by
  have hmapeq :
      (db.map fun x =>
        if x.id == id then applyProductUpdates now { isActive := some false } x
        else x) =
      db.map (fun x =>
        if x.id == id then { x with isActive := false, updatedAt := now }
        else x) := by
    simp only [applyProductUpdates_deactivate]
  have hfind2 :
      ((db.map fun x =>
        if x.id == id then applyProductUpdates now { isActive := some false } x
        else x).find? (fun x => x.id == id)).isSome := by
    rw [List.find?_isSome]
    refine ⟨if p0.id == id then applyProductUpdates now { isActive := some false } p0 else p0,
      List.mem_map.mpr ⟨p0, hp, rfl⟩, ?_⟩
    rw [if_pos (by simpa using hid0)]
    simp [applyProductUpdates_deactivate, hid0]
  cases b
  case pg =>
    simp only [show updateProductRepo .pg = PostgresRepository.UpdateProduct from rfl]
    unfold PostgresRepository.UpdateProduct
    dsimp only
    cases hf : db.find? (fun x => x.id == id) with
    | none =>
      have hcontra := List.find?_eq_none.mp hf p0 hp
      simp [hid0] at hcontra
    | some y =>
      rw [if_neg (by decide)]
      obtain ⟨z, hz⟩ := Option.isSome_iff_exists.mp hfind2
      rw [hz]
      exact ⟨z, by rw [hmapeq]⟩
  case dyn =>
    simp only [show updateProductRepo .dyn = DynamoDBRepository.UpdateProduct from rfl]
    unfold DynamoDBRepository.UpdateProduct
    dsimp only
    rw [if_neg (by decide)]
    cases hf : db.find? (fun x => x.id == id) with
    | none =>
      have hcontra := List.find?_eq_none.mp hf p0 hp
      simp [hid0] at hcontra
    | some y =>
      obtain ⟨z, hz⟩ := Option.isSome_iff_exists.mp hfind2
      rw [hz]
      exact ⟨z, by rw [hmapeq]⟩

theorem getProduct_ok_mem (b : Backend) (db : List Product) (id : String)
    (p : Product) (h : getProduct b db id = .ok p) : p ∈ db ∧ p.id = id := by
  cases b
  case pg =>
    rw [show getProduct .pg db id = PostgresRepository.GetProduct db id from rfl] at h
    unfold PostgresRepository.GetProduct at h
    cases hf : db.find? (fun x => x.id == id && x.isActive) with
    | none => rw [hf] at h; cases h
    | some x =>
      rw [hf] at h
      injection h with hxp
      subst hxp
      have hpred := List.find?_some hf
      rw [Bool.and_eq_true, beq_iff_eq] at hpred
      exact ⟨List.mem_of_find?_eq_some hf, hpred.1⟩
  case dyn =>
    rw [show getProduct .dyn db id = DynamoDBRepository.GetProduct db id from rfl] at h
    unfold DynamoDBRepository.GetProduct at h
    cases hf : db.find? (fun x => x.id == id) with
    | none => rw [hf] at h; cases h
    | some x =>
      rw [hf] at h
      injection h with hxp
      subst hxp
      have hpred := List.find?_some hf
      rw [beq_iff_eq] at hpred
      exact ⟨List.mem_of_find?_eq_some hf, hpred⟩

theorem deleteProduct_ok_state (b : Backend) (now : Nat) (db : List Product)
    (id : String) (db' : List Product)
    (h : ProductService.DeleteProduct b now db id = .ok db') :
    db' = db.map (fun x =>
      if x.id == id then { x with isActive := false, updatedAt := now }
      else x) ∧
    ∃ p ∈ db, p.id = id := by
  unfold ProductService.DeleteProduct at h
  by_cases hid : (id == "") = true
  · rw [if_pos hid] at h
    cases h
  · rw [if_neg hid] at h
    cases hget : getProduct b db id with
    | error e => rw [hget] at h; cases h
    | ok p =>
      rw [hget] at h
      obtain ⟨hpm, hpid⟩ := getProduct_ok_mem b db id p hget
      obtain ⟨q, hq⟩ := updateRepo_deactivate b now db id p hpm hpid
      rw [hq] at h
      injection h with hdb'
      exact ⟨hdb'.symm, p, hpm, hpid⟩

theorem dynApplyOffset_sublist (S : List Product) (off : Int) :
    List.Sublist (dynApplyOffset S off) S := by
  unfold dynApplyOffset
  split
  · exact List.drop_sublist _ _
  · split
    · exact List.nil_sublist _
    · exact List.Sublist.refl _

theorem dynApplyLimit_sublist (S : List Product) (lim : Int) :
    List.Sublist (dynApplyLimit S lim) S := by
  unfold dynApplyLimit
  split
  · exact List.take_sublist _ _
  · exact List.Sublist.refl _

/-- Anything a repository listing returns is a stored record that is
active: both backends always apply the `is_active` condition. -/
theorem mem_listProducts_active (b : Backend) (db : List Product)
    (f : ProductFilter) (x : Product)
    (hx : x ∈ (listProducts b db f).products) : x ∈ db ∧ x.isActive = true := by
  cases b
  case pg =>
    rw [show (listProducts .pg db f) = PostgresRepository.ListProducts db f from rfl] at hx
    simp only [PostgresRepository.ListProducts] at hx
    have hxf : x ∈ db.filter (pgMatch f) := by
      split at hx
      · split at hx
        · exact List.mem_of_mem_drop (List.mem_of_mem_take hx)
        · exact List.mem_of_mem_take hx
      · split at hx
        · exact List.mem_of_mem_drop hx
        · exact hx
    have hm := List.mem_filter.mp hxf
    refine ⟨hm.1, ?_⟩
    have hmm := hm.2
    simp only [pgMatch, Bool.and_eq_true] at hmm
    tauto
  case dyn =>
    rw [show (listProducts .dyn db f) = DynamoDBRepository.ListProducts db f from rfl] at hx
    simp only [DynamoDBRepository.ListProducts] at hx
    have hx1 := (dynApplyOffset_sublist _ f.offset).subset
      ((dynApplyLimit_sublist _ f.limit).subset hx)
    have hx2 : x ∈ (if f.limit > 0 then db.take f.limit.toNat else db).filter
        (dynNativeMatch f) := by
      split at hx1
      · exact hx1
      · exact (List.mem_filter.mp hx1).1
    have hm := List.mem_filter.mp hx2
    constructor
    · have hmem := hm.1
      split at hmem
      · exact List.mem_of_mem_take hmem
      · exact hmem
    · have hmm := hm.2
      simp only [dynNativeMatch, Bool.and_eq_true] at hmm
      tauto

theorem applyDepartmentUpdates_deactivate (now : Nat) (d : Department) :
    applyDepartmentUpdates now { isActive := some false } d =
      { d with isActive := false, updatedAt := now } := rfl

theorem updateDepartment_deactivate (now : Nat) (ddb : List Department)
    (did : String) (d0 : Department) (hd : d0 ∈ ddb) (hid0 : d0.id = did) :
    ∃ q, PostgresRepository.UpdateDepartment now ddb did { isActive := some false } =
      .ok (q, ddb.map (fun d =>
        if d.id == did then { d with isActive := false, updatedAt := now }
        else d)) := by
  have hmapeq :
      (ddb.map fun d =>
        if d.id == did then applyDepartmentUpdates now { isActive := some false } d
        else d) =
      ddb.map (fun d =>
        if d.id == did then { d with isActive := false, updatedAt := now }
        else d) := by
    simp only [applyDepartmentUpdates_deactivate]
  have hfind2 :
      ((ddb.map fun d =>
        if d.id == did then applyDepartmentUpdates now { isActive := some false } d
        else d).find? (fun d => d.id == did)).isSome := by
    rw [List.find?_isSome]
    refine ⟨if d0.id == did then applyDepartmentUpdates now { isActive := some false } d0 else d0,
      List.mem_map.mpr ⟨d0, hd, rfl⟩, ?_⟩
    rw [if_pos (by simpa using hid0)]
    simp [applyDepartmentUpdates_deactivate, hid0]
  unfold PostgresRepository.UpdateDepartment
  dsimp only
  cases hf : ddb.find? (fun d => d.id == did) with
  | none =>
    have hcontra := List.find?_eq_none.mp hf d0 hd
    simp [hid0] at hcontra
  | some y =>
    rw [if_neg (by decide)]
    obtain ⟨z, hz⟩ := Option.isSome_iff_exists.mp hfind2
    rw [hz]
    exact ⟨z, by rw [hmapeq]⟩

theorem deleteDepartment_ok_state (now : Nat) (ddb : List Department)
    (did : String) (ddb' : List Department)
    (h : DepartmentService.DeleteDepartment now ddb did = .ok ddb') :
    ddb' = ddb.map (fun d =>
      if d.id == did then { d with isActive := false, updatedAt := now }
      else d) ∧
    ∃ d ∈ ddb, d.id = did := by
  unfold DepartmentService.DeleteDepartment at h
  by_cases hid : (did == "") = true
  · rw [if_pos hid] at h
    cases h
  · rw [if_neg hid] at h
    cases hget : PostgresRepository.GetDepartment ddb did with
    | error e => rw [hget] at h; cases h
    | ok d =>
      rw [hget] at h
      have hdm : d ∈ ddb ∧ d.id = did := by
        unfold PostgresRepository.GetDepartment at hget
        cases hf : ddb.find? (fun x => x.id == did && x.isActive) with
        | none => rw [hf] at hget; cases hget
        | some x =>
          rw [hf] at hget
          injection hget with hx
          subst hx
          have hpred := List.find?_some hf
          rw [Bool.and_eq_true, beq_iff_eq] at hpred
          exact ⟨List.mem_of_find?_eq_some hf, hpred.1⟩
      obtain ⟨q, hq⟩ := updateDepartment_deactivate now ddb did d hdm.1 hdm.2
      rw [hq] at h
      injection h with hdb'
      exact ⟨hdb'.symm, d, hdm.1, hdm.2⟩

/-- C4 (counterexample): on the key-value backend, after a successful
service-level delete, `GetProduct` does NOT fail — it returns the
soft-deleted record, because the key lookup applies no `is_active`
condition. -/
theorem C4_counterexample :
    ProductService.DeleteProduct .dyn 7 [prodA] "a" =
      .ok [{ prodA with isActive := false, updatedAt := 7 }] ∧
    DynamoDBRepository.GetProduct
        [{ prodA with isActive := false, updatedAt := 7 }] "a" =
      .ok { prodA with isActive := false, updatedAt := 7 } := by
  decide

/-- C4 (amended): after a successful service-level delete, the entity is
absent from every list result on both backends and the stored record still
exists with `is_active = false`; `get(id)` fails with the not-found error
on the relational backend, while the key-value backend's get (which does
not filter on `is_active`) returns the soft-deleted record. -/
theorem C4_soft_delete_exclusion (b : Backend) (now : Nat) (db : List Product)
    (id : String) (db' : List Product) (f : ProductFilter)
    (h : ProductService.DeleteProduct b now db id = .ok db') :
    ((listProducts b db' f).products.all (fun x => !(x.id == id)) = true) ∧
    (b = .pg → PostgresRepository.GetProduct db' id = .error .productNotFound) ∧
    (b = .dyn → ∃ x, DynamoDBRepository.GetProduct db' id = .ok x ∧
      x.isActive = false) ∧
    (∃ x ∈ db', x.id = id ∧ x.isActive = false) := by
  obtain ⟨hdb', p, hpm, hpid⟩ := deleteProduct_ok_state b now db id db' h
  have hall : ∀ x ∈ db', x.id = id → x.isActive = false := by
    intro x hx hxid
    rw [hdb'] at hx
    obtain ⟨y, hy, hyeq⟩ := List.mem_map.mp hx
    by_cases hyid : (y.id == id) = true
    · rw [if_pos hyid] at hyeq
      rw [← hyeq]
    · rw [if_neg hyid] at hyeq
      rw [← hyeq] at hxid
      exact absurd hxid (by simpa using hyid)
  have hmem' : ∃ x ∈ db', x.id = id ∧ x.isActive = false := by
    refine ⟨if p.id == id then { p with isActive := false, updatedAt := now } else p,
      ?_, ?_⟩
    · rw [hdb']
      exact List.mem_map.mpr ⟨p, hpm, rfl⟩
    · rw [if_pos (by simpa using hpid)]
      exact ⟨hpid, rfl⟩
  refine ⟨?_, ?_, ?_, hmem'⟩
  · rw [List.all_eq_true]
    intro x hx
    obtain ⟨hxdb, hxact⟩ := mem_listProducts_active b db' f x hx
    by_cases hxid : x.id = id
    · rw [hall x hxdb hxid] at hxact
      cases hxact
    · simpa using hxid
  · rintro rfl
    unfold PostgresRepository.GetProduct
    cases hf : db'.find? (fun x => x.id == id && x.isActive) with
    | none => rfl
    | some x =>
      have hpred := List.find?_some hf
      rw [Bool.and_eq_true, beq_iff_eq] at hpred
      have hfalse := hall x (List.mem_of_find?_eq_some hf) hpred.1
      rw [hfalse] at hpred
      cases hpred.2
  · rintro rfl
    have hsome : (db'.find? (fun x => x.id == id)).isSome := by
      rw [List.find?_isSome]
      obtain ⟨x, hx, hxid, _⟩ := hmem'
      exact ⟨x, hx, by simpa using hxid⟩
    obtain ⟨x, hxf⟩ := Option.isSome_iff_exists.mp hsome
    refine ⟨x, ?_, ?_⟩
    · unfold DynamoDBRepository.GetProduct
      rw [hxf]
    · have hpred := List.find?_some hxf
      exact hall x (List.mem_of_find?_eq_some hxf) (by simpa using hpred)

/-- C4 witness: the amended statement at a concrete deletion on the
key-value backend. -/
theorem C4_witness :
    (ProductService.DeleteProduct .dyn 7 [prodA] "a" =
      .ok [{ prodA with isActive := false, updatedAt := 7 }]) ∧
    (((listProducts .dyn [{ prodA with isActive := false, updatedAt := 7 }] {}).products.all
        (fun x => !(x.id == "a")) = true) ∧
     (Backend.dyn = .pg →
       PostgresRepository.GetProduct
         [{ prodA with isActive := false, updatedAt := 7 }] "a" =
           .error .productNotFound) ∧
     (Backend.dyn = .dyn → ∃ x,
       DynamoDBRepository.GetProduct
         [{ prodA with isActive := false, updatedAt := 7 }] "a" = .ok x ∧
       x.isActive = false) ∧
     (∃ x ∈ [{ prodA with isActive := false, updatedAt := 7 }],
       x.id = "a" ∧ x.isActive = false)) :=
  ⟨by decide, C4_soft_delete_exclusion .dyn 7 [prodA] "a" _ {} (by decide)⟩

/-- C10 (counterexample): the claim's "all other fields unchanged" fails on
the timestamp — the soft-delete patch always rewrites `updated_at`
(explicitly in the key-value update expression). -/
theorem C10_counterexample :
    ProductService.DeleteProduct .dyn 7 [prodA] "a" =
      .ok [{ prodA with isActive := false, updatedAt := 7 }] ∧
    ({ prodA with isActive := false, updatedAt := 7 } : Product).updatedAt ≠
      prodA.updatedAt := by
  decide

/-- C10 (amended): on either backend the service-level delete never reaches
the repository hard-delete: a successful `ProductService.DeleteProduct`
(and `DepartmentService.DeleteDepartment`) leaves exactly the old table
with the targeted records patched to `is_active = false` and a fresh
`updated_at`, all other fields unchanged — the record count is preserved,
even on the key-value backend whose repository `DeleteProduct` would
remove the item. -/
theorem C10_soft_delete_only (b : Backend) (now : Nat)
    (db : List Product) (id : String) (db' : List Product)
    (ddb : List Department) (did : String) (ddb' : List Department)
    (h1 : ProductService.DeleteProduct b now db id = .ok db')
    (h2 : DepartmentService.DeleteDepartment now ddb did = .ok ddb') :
    (db' = db.map (fun x =>
       if x.id == id then { x with isActive := false, updatedAt := now }
       else x) ∧
     db'.length = db.length ∧ (∃ x ∈ db, x.id = id)) ∧
    (ddb' = ddb.map (fun d =>
       if d.id == did then { d with isActive := false, updatedAt := now }
       else d) ∧
     ddb'.length = ddb.length ∧ (∃ d ∈ ddb, d.id = did)) := by
  obtain ⟨hp1, hp2⟩ := deleteProduct_ok_state b now db id db' h1
  obtain ⟨hd1, hd2⟩ := deleteDepartment_ok_state now ddb did ddb' h2
  exact ⟨⟨hp1, by rw [hp1, List.length_map], hp2⟩,
    ⟨hd1, by rw [hd1, List.length_map], hd2⟩⟩

/-- C10 witness: concrete soft deletes of a product (key-value backend) and
a department. -/
theorem C10_witness :
    (ProductService.DeleteProduct .dyn 7 [prodA] "a" =
       .ok [{ prodA with isActive := false, updatedAt := 7 }] ∧
     DepartmentService.DeleteDepartment 7 [deptA] "d1" =
       .ok [{ deptA with isActive := false, updatedAt := 7 }]) ∧
    (([{ prodA with isActive := false, updatedAt := 7 }] =
        [prodA].map (fun x =>
          if x.id == "a" then { x with isActive := false, updatedAt := 7 }
          else x) ∧
      ([{ prodA with isActive := false, updatedAt := 7 }] : List Product).length =
        ([prodA] : List Product).length ∧ (∃ x ∈ [prodA], x.id = "a")) ∧
     ([{ deptA with isActive := false, updatedAt := 7 }] =
        [deptA].map (fun d =>
          if d.id == "d1" then { d with isActive := false, updatedAt := 7 }
          else d) ∧
      ([{ deptA with isActive := false, updatedAt := 7 }] : List Department).length =
        ([deptA] : List Department).length ∧ (∃ d ∈ [deptA], d.id = "d1"))) :=
  ⟨⟨by decide, by decide⟩,
    C10_soft_delete_only .dyn 7 [prodA] "a"
      [{ prodA with isActive := false, updatedAt := 7 }]
      [deptA] "d1" [{ deptA with isActive := false, updatedAt := 7 }]
      (by decide) (by decide)⟩

/-! ## Category levels (C6) -/

theorem catSuppliedCount_ne_zero {u : UpdateCategoryRequest}
    (hu : u.parentID.isSome = true) : ¬ ((u.suppliedCount == 0) = true) := by
  have h1 : u.suppliedCount ≠ 0 := by
    unfold UpdateCategoryRequest.suppliedCount
    rw [if_pos hu]
    omega
  simpa using h1

theorem createCategory_ok_level (now : Nat) (db : List Category) (newId : String)
    (req : CreateCategoryRequest) (c : Category) (db' : List Category)
    (h : CategoryService.CreateCategory now db newId req = .ok (c, db')) :
    c.id = newId ∧ c.parentID = req.parentID ∧
    (req.parentID = none → c.level = 0) ∧
    (∀ pid, req.parentID = some pid →
      ∃ par, db.find? (fun x => x.id == pid) = some par ∧
        c.level = par.level + 1) := by
  unfold CategoryService.CreateCategory at h
  dsimp only at h
  cases hreq : req.parentID with
  | none =>
    rw [hreq] at h
    dsimp only at h
    unfold PostgresRepository.CreateCategory at h
    dsimp only at h
    simp only [Except.ok.injEq, Prod.mk.injEq] at h
    obtain ⟨hc, hdb⟩ := h
    subst hc
    refine ⟨rfl, rfl, fun _ => rfl, ?_⟩
    intro pid hpid
    cases hpid
  | some pid =>
    rw [hreq] at h
    dsimp only at h
    have hrepo : PostgresRepository.CreateCategory db newId
        { id := "", name := req.name, slug := req.slug,
          description := req.description, parentID := some pid, level := 0,
          isActive := false, createdAt := now, updatedAt := now } =
        .ok (c, db') := by
      by_cases hpe : (pid == "") = true
      · rw [if_pos hpe] at h
        exact h
      · rw [if_neg hpe] at h
        cases hgp : PostgresRepository.GetCategory db pid with
        | error e => rw [hgp] at h; cases h
        | ok par => rw [hgp] at h; exact h
    unfold PostgresRepository.CreateCategory at hrepo
    dsimp only at hrepo
    cases hfp : db.find? (fun x => x.id == pid) with
    | none => rw [hfp] at hrepo; cases hrepo
    | some par =>
      rw [hfp] at hrepo
      simp only [Except.ok.injEq, Prod.mk.injEq] at hrepo
      obtain ⟨hc, hdb⟩ := hrepo
      subst hc
      refine ⟨rfl, rfl, ?_, ?_⟩
      · intro hnone
        cases hnone
      · intro pid1 hpid1
        injection hpid1 with hp1
        subst hp1
        exact ⟨par, hfp, rfl⟩

theorem repoUpdateCategory_ok_parent (now : Nat) (db : List Category)
    (id : String) (u : UpdateCategoryRequest) (pid0 : String)
    (c : Category) (db' : List Category)
    (hu : u.parentID = some pid0)
    (h : PostgresRepository.UpdateCategory now db id u = .ok (c, db')) :
    c.id = id ∧ c.parentID = some pid0 ∧
    (pid0 = "" → c.level = 0) ∧
    (pid0 ≠ "" → ∃ par, db.find? (fun x => x.id == pid0) = some par ∧
      c.level = par.level + 1) := by
  unfold PostgresRepository.UpdateCategory at h
  dsimp only at h
  cases hf : db.find? (fun x => x.id == id) with
  | none => rw [hf] at h; cases h
  | some c0 =>
    rw [hf, hu] at h
    dsimp only at h
    have hcount := catSuppliedCount_ne_zero (u := u) (by rw [hu]; rfl)
    -- the resolved new level and the parent evidence, by cases on pid0
    by_cases hpe : (pid0 == "") = true
    · rw [if_pos hpe] at h
      dsimp only at h
      rw [if_neg hcount] at h
      cases hf2 : (db.map (fun x =>
          if x.id == id then
            { x with
              name := u.name.getD x.name
              slug := u.slug.getD x.slug
              description := u.description.getD x.description
              parentID := some pid0
              level := (some (0 : Int)).getD x.level
              isActive := u.isActive.getD x.isActive
              updatedAt := now }
          else x)).find? (fun x => x.id == id) with
      | none =>
        rw [hf2] at h
        cases h
      | some c1 =>
        rw [hf2] at h
        simp only [Except.ok.injEq, Prod.mk.injEq] at h
        obtain ⟨hc, _⟩ := h
        subst hc
        have hc1id : c1.id = id := by simpa using List.find?_some hf2
        obtain ⟨y, hy, hyeq⟩ := List.mem_map.mp (List.mem_of_find?_eq_some hf2)
        by_cases hyid : (y.id == id) = true
        · rw [if_pos hyid] at hyeq
          rw [← hyeq]
          refine ⟨by rw [hyeq]; exact hc1id, rfl, fun _ => rfl, ?_⟩
          intro hne
          exact absurd (by simpa using hpe) hne
        · rw [if_neg hyid] at hyeq
          rw [hyeq] at hyid
          exact absurd (by simpa using hc1id) (by simpa using hyid)
    · rw [if_neg hpe] at h
      cases hfp : db.find? (fun x => x.id == pid0) with
      | none =>
        rw [hfp] at h
        cases h
      | some par =>
        rw [hfp] at h
        dsimp only at h
        rw [if_neg hcount] at h
        cases hf2 : (db.map (fun x =>
            if x.id == id then
              { x with
                name := u.name.getD x.name
                slug := u.slug.getD x.slug
                description := u.description.getD x.description
                parentID := some pid0
                level := (some (par.level + 1)).getD x.level
                isActive := u.isActive.getD x.isActive
                updatedAt := now }
            else x)).find? (fun x => x.id == id) with
        | none =>
          rw [hf2] at h
          cases h
        | some c1 =>
          rw [hf2] at h
          simp only [Except.ok.injEq, Prod.mk.injEq] at h
          obtain ⟨hc, _⟩ := h
          subst hc
          have hc1id : c1.id = id := by simpa using List.find?_some hf2
          obtain ⟨y, hy, hyeq⟩ := List.mem_map.mp (List.mem_of_find?_eq_some hf2)
          by_cases hyid : (y.id == id) = true
          · rw [if_pos hyid] at hyeq
            rw [← hyeq]
            refine ⟨by rw [hyeq]; exact hc1id, rfl, ?_, ?_⟩
            · intro he
              exact absurd (by simpa using he) (by simpa using hpe)
            · intro _
              exact ⟨par, rfl, rfl⟩
          · rw [if_neg hyid] at hyeq
            rw [hyeq] at hyid
            exact absurd (by simpa using hc1id) (by simpa using hyid)

theorem updateCategory_ok_parent (now : Nat) (db : List Category) (id : String)
    (u : UpdateCategoryRequest) (pid0 : String) (c : Category)
    (db' : List Category) (hu : u.parentID = some pid0)
    (h : CategoryService.UpdateCategory now db id u = .ok (c, db')) :
    c.id = id ∧ c.parentID = some pid0 ∧
    (pid0 = "" → c.level = 0) ∧
    (pid0 ≠ "" → pid0 ≠ id ∧
      ∃ par, db.find? (fun x => x.id == pid0) = some par ∧
        c.level = par.level + 1) := by
  unfold CategoryService.UpdateCategory at h
  dsimp only at h
  by_cases hid : (id == "") = true
  · rw [if_pos hid] at h
    cases h
  · rw [if_neg hid] at h
    cases hget : PostgresRepository.GetCategory db id with
    | error e => rw [hget] at h; cases h
    | ok c0 =>
      rw [hget, hu] at h
      dsimp only at h
      by_cases hpe : (pid0 == "") = true
      · rw [if_pos hpe] at h
        obtain ⟨h1, h2, h3, h4⟩ := repoUpdateCategory_ok_parent now db id u pid0 c db' hu h
        exact ⟨h1, h2, h3, fun hne => absurd (by simpa using hpe) hne⟩
      · rw [if_neg hpe] at h
        by_cases hpi : (pid0 == id) = true
        · rw [if_pos hpi] at h
          cases h
        · rw [if_neg hpi] at h
          cases hgp : PostgresRepository.GetCategory db pid0 with
          | error e => rw [hgp] at h; cases h
          | ok par0 =>
            rw [hgp] at h
            obtain ⟨h1, h2, h3, h4⟩ :=
              repoUpdateCategory_ok_parent now db id u pid0 c db' hu h
            refine ⟨h1, h2, h3, fun hne => ⟨by simpa using hpi, h4 hne⟩⟩

/-- C6 (counterexample): the level equation is NOT an invariant of all
states reachable through service-level creates and updates.  Create root
`a`, root `c`, child `b` under `a` (level 1), then reparent `a` under `c`:
`a` now has level 1, but its stored child `b` keeps level 1 ≠ 1 + 1 — the
update recomputes only the touched category's level, never descendants. -/
theorem C6_counterexample :
    (catStep 0 [] (.create "a" { name := "A", slug := "a", description := "" }) =
      .ok (catA, [catA])) ∧
    (catStep 0 [catA] (.create "c" { name := "C", slug := "c", description := "" }) =
      .ok (catC, [catA, catC])) ∧
    (catStep 0 [catA, catC]
        (.create "b" { name := "B", slug := "b", description := "", parentID := some "a" }) =
      .ok (catB, [catA, catC, catB])) ∧
    (catStep 0 [catA, catC, catB] (.update "a" { parentID := some "c" }) =
      .ok (catA2, [catA2, catC, catB])) ∧
    catB ∈ [catA2, catC, catB] ∧ catA2 ∈ [catA2, catC, catB] ∧
    catB.parentID = some catA2.id ∧ catB.level ≠ catA2.level + 1 := by
  decide

/-- C6 (amended): over ids drawn from the uuid generator (non-empty, fresh
on create), every service-level create, and every update that supplies the
parent reference, leaves the touched category with a correct level — 0
when rootless (no parent, or the empty-string parent an update writes),
else `parent.level + 1` against the stored parent — and never its own
parent.  Levels of pre-existing descendants are NOT recomputed (see the
counterexample), so the claim's blanket invariant fails. -/
theorem C6_category_level (now : Nat) (db : List Category) (op : CatOp)
    (c : Category) (db' : List Category)
    (hstep : catStep now db op = .ok (c, db'))
    (htouch : op.touchesParent = true)
    (hfresh : op.freshFor db)
    (hids : ∀ x ∈ db, x.id ≠ "") :
    ((c.parentID = none ∨ c.parentID = some "") → c.level = 0) ∧
    (∀ pid, c.parentID = some pid → pid ≠ "" →
      (∃ par, db.find? (fun x => x.id == pid) = some par ∧
        c.level = par.level + 1) ∧ pid ≠ c.id) := by
  cases op with
  | create newId req =>
    obtain ⟨hcid, hcp, hnone, hsome⟩ :=
      createCategory_ok_level now db newId req c db' hstep
    constructor
    · intro hroot
      rcases hroot with h0 | h0
      · exact hnone (by rw [← hcp]; exact h0)
      · exfalso
        obtain ⟨par, hfind, _⟩ := hsome "" (by rw [← hcp]; exact h0)
        exact hids par (List.mem_of_find?_eq_some hfind)
          (by simpa using List.find?_some hfind)
    · intro pid hpid hpne
      obtain ⟨par, hfind, hlev⟩ := hsome pid (by rw [← hcp]; exact hpid)
      refine ⟨⟨par, hfind, hlev⟩, ?_⟩
      have hparid : par.id = pid := by simpa using List.find?_some hfind
      rw [hcid, ← hparid]
      exact hfresh par (List.mem_of_find?_eq_some hfind)
  | update id u =>
    obtain ⟨pid0, hpid0⟩ := Option.isSome_iff_exists.mp htouch
    obtain ⟨hcid, hcp, hzero, hpos⟩ :=
      updateCategory_ok_parent now db id u pid0 c db' hpid0 hstep
    constructor
    · intro hroot
      rcases hroot with h0 | h0
      · rw [hcp] at h0
        cases h0
      · rw [hcp] at h0
        injection h0 with h0'
        exact hzero h0'
    · intro pid hpid hpne
      rw [hcp] at hpid
      injection hpid with h0'
      subst h0'
      obtain ⟨hne_id, par, hfind, hlev⟩ := hpos hpne
      refine ⟨⟨par, hfind, hlev⟩, ?_⟩
      rw [hcid]
      exact hne_id

/-- C6 witness: the amended statement at the concrete reparenting step of
the counterexample scenario. -/
theorem C6_witness :
    (catStep 0 [catA, catC, catB] (.update "a" { parentID := some "c" }) =
       .ok (catA2, [catA2, catC, catB]) ∧
     CatOp.touchesParent (.update "a" { parentID := some "c" }) = true ∧
     CatOp.freshFor (.update "a" { parentID := some "c" }) [catA, catC, catB] ∧
     (∀ x ∈ [catA, catC, catB], x.id ≠ "")) ∧
    (((catA2.parentID = none ∨ catA2.parentID = some "") → catA2.level = 0) ∧
     (∀ pid, catA2.parentID = some pid → pid ≠ "" →
       (∃ par, [catA, catC, catB].find? (fun x => x.id == pid) = some par ∧
         catA2.level = par.level + 1) ∧ pid ≠ catA2.id)) :=
  ⟨⟨by decide, by decide, by trivial, by decide⟩,
    C6_category_level 0 [catA, catC, catB] (.update "a" { parentID := some "c" })
      catA2 [catA2, catC, catB] (by decide) (by decide) (by trivial) (by decide)⟩

end SuperMarket
